import Mathlib

/-!
Shallow embedding of the profile-point extraction and terrain/roughness
analysis pipeline of `src/vpc_profile_analyzer.py` (class `VPCProfileAnalyzer`),
together with theorems checking the repository specification against it.

Python floats are modelled by `ℝ`.  The QGIS geometry calls the pipeline makes
(`buffer`/`contains`, `closestVertex`, `lineLocatePoint`, `length`) are modelled
by their documented exact semantics; `numpy` aggregates (`np.mean`, `np.std`,
`np.polyfit`) by their mathematical definitions.
-/

noncomputable section

/-- A planar point `(x, y)`. -/
abbrev Pt : Type := ℝ × ℝ

/-- Squared Euclidean distance between two planar points. -/
def sqDist (p q : Pt) : ℝ := (p.1 - q.1) ^ 2 + (p.2 - q.2) ^ 2

/-- Length of the segment from `a` to `b`. -/
def segLen (a b : Pt) : ℝ := Real.sqrt (sqDist a b)

/-- Parameter in `[0, 1]` of the point of the segment from `a` to `b` nearest
to `p` (the orthogonal-projection parameter, clamped to the segment). -/
def segParam (a b p : Pt) : ℝ :=
  max 0 (min 1 (((p.1 - a.1) * (b.1 - a.1) + (p.2 - a.2) * (b.2 - a.2)) / sqDist a b))

/-- The point of the segment from `a` to `b` nearest to `p`. -/
def segClosest (a b p : Pt) : Pt :=
  (a.1 + segParam a b p * (b.1 - a.1), a.2 + segParam a b p * (b.2 - a.2))

/-- Squared distance from `p` to the segment from `a` to `b`. -/
def sqDistToSeg (a b p : Pt) : ℝ := sqDist p (segClosest a b p)

/-- Consecutive vertex pairs (the segments) of a polyline given by its vertices. -/
def segments : List Pt → List (Pt × Pt)
  | a :: b :: rest => (a, b) :: segments (b :: rest)
  | _ => []

/-- Model of `QgsLineString.length()` / `QgsGeometry.length()`: total arc length
of the polyline (`total_distance = self.profile_line.length()`, line 386). -/
def lineLength (line : List Pt) : ℝ :=
  ((segments line).map (fun s => segLen s.1 s.2)).sum

/-- Squared distance from `p` to the polyline (minimum over its segments). -/
def sqDistToLine (line : List Pt) (p : Pt) : ℝ :=
  match segments line with
  | [] => 0
  | s :: rest =>
      (rest.map (fun t => sqDistToSeg t.1 t.2 p)).foldl min (sqDistToSeg s.1 s.2 p)

/-- Model of `buffered_geometry.contains(point_geom)` (line 400), where
`buffered_geometry = QgsGeometry(self.profile_line).buffer(self.buffer_distance, 5)`
(line 376): the point lies within distance `b` of the polyline.  The
5-segments-per-quadrant polygonal approximation of the round buffer caps is
abstracted to the exact buffer. -/
abbrev bufferContains (line : List Pt) (b : ℝ) (p : Pt) : Prop :=
  sqDistToLine line p ≤ b ^ 2

/-- Model of `QgsGeometry.closestVertex(p)` (line 402): the polyline vertex
nearest to `p`; ties keep the earliest vertex (QGIS improves only on a strictly
smaller squared distance).  The code uses only component `[0]` (the vertex) of
the returned tuple. -/
def closestVertex (line : List Pt) (p : Pt) : Pt :=
  match line with
  | [] => p
  | v :: vs => vs.foldl (fun best w => if sqDist p w < sqDist p best then w else best) v

/-- Scan of the polyline segments tracking the best (squared distance,
arc-length position) pair seen so far; `arc` is the arc length consumed before
the current segment.  Ties keep the earliest position (strict improvement). -/
def locateFold (p : Pt) : List (Pt × Pt) → ℝ → ℝ × ℝ → ℝ × ℝ
  | [], _, best => best
  | s :: rest, arc, best =>
      locateFold p rest (arc + segLen s.1 s.2)
        (if sqDistToSeg s.1 s.2 p < best.1
          then (sqDistToSeg s.1 s.2 p, arc + segParam s.1 s.2 p * segLen s.1 s.2)
          else best)

/-- Model of `QgsGeometry.lineLocatePoint` (line 403): the arc-length position,
measured from the polyline start, of the point on the polyline nearest to `p`
(earliest such position on ties).  This is also the specification's
`project(P)`: the arc-length distance from the polyline start to the point on
the polyline nearest to `P`. -/
def lineLocatePoint (line : List Pt) (p : Pt) : ℝ :=
  match segments line with
  | [] => 0
  | s :: rest =>
      (locateFold p rest (segLen s.1 s.2)
        (sqDistToSeg s.1 s.2 p, segParam s.1 s.2 p * segLen s.1 s.2)).2

/-- The `ProfilePoint` dataclass (lines 27-37). -/
structure ProfilePoint where
  x : ℝ
  y : ℝ
  z : ℝ
  distance : ℝ
  intensity : Option ℝ := none
  classification : Option ℤ := none
  rgb : Option (ℤ × ℤ × ℤ) := none
  original_coords : Option (ℝ × ℝ × ℝ) := none

/-- One record yielded by the point-cloud iterator (`point_data`, line 390).
A field holds `none` when the subscript/`get` would not produce a usable
number: for `x`/`y` this models a missing or non-numeric `point_data` entry
(where the Python code would raise `KeyError`/`TypeError`). -/
structure RawRecord where
  x : Option ℝ
  y : Option ℝ
  z : Option ℝ
  intensity : Option ℝ
  classification : Option ℤ

/-- Model of `QgsRectangle` as used by `get_profile_line` (lines 345-359). -/
structure Extent where
  xMin : ℝ
  xMax : ℝ
  yMin : ℝ
  yMax : ℝ

/-- The y coordinate of `extent.center()`. -/
def Extent.centerY (e : Extent) : ℝ := (e.yMin + e.yMax) / 2

/-- `get_profile_line` (lines 345-359): a straight line across the layer
extent, from `(xMinimum, center.y)` to `(xMaximum, center.y)`.  No validation
of any kind is performed. -/
def get_profile_line (e : Extent) : List Pt :=
  [(e.xMin, e.centerY), (e.xMax, e.centerY)]

/-- The log messages `extract_profile_points` can emit on a completed run
(lines 427 and 429). -/
inductive LogMessage where
  | pointsExtracted (n : ℕ)
  | noPointsFound

/-- Outcome of `extract_profile_points`: either the loop ran to completion
(`ok`, with the log message of lines 425-429), or an exception was raised
inside the `try` block and caught by the handler of lines 431-433 (`aborted`;
`self.profile_points` keeps the points appended before the exception). -/
inductive ExtractOutcome where
  | ok (points : List ProfilePoint) (message : LogMessage)
  | aborted (pointsSoFar : List ProfilePoint)

/-- The points held in `self.profile_points` after extraction, for either
outcome. -/
def ExtractOutcome.points : ExtractOutcome → List ProfilePoint
  | .ok pts _ => pts
  | .aborted pts => pts

/-- The `ProfilePoint` built for an accepted record (lines 401-414): its
`distance` is `lineLocatePoint` applied to the `closestVertex` of the record's
position, `z` defaults to `0` when absent (`point_data.get('Z', 0)`, line 395),
and the optional fields are copied through. -/
def mkProfilePoint (line : List Pt) (r : RawRecord) (x y : ℝ) : ProfilePoint :=
  { x := x
    y := y
    z := r.z.getD 0
    distance := lineLocatePoint line (closestVertex line (x, y))
    intensity := r.intensity
    classification := r.classification
    original_coords := some (x, y, r.z.getD 0) }

/-- The `while iterator.hasNext()` loop of `extract_profile_points`
(lines 389-421), processing the raw records in order while accumulating
`self.profile_points`.  A record with missing/non-numeric `X` or `Y` raises at
the subscript (lines 393-394), which the method-level handler catches:
`.error` carries the points accumulated up to that record.  When the polyline
has zero total length, the progress computation
`int((distance_along_profile / total_distance) * 100)` (line 420) raises
`ZeroDivisionError` right after the point was appended. -/
def extractLoop (line : List Pt) (b : ℝ) :
    List RawRecord → List ProfilePoint → Except (List ProfilePoint) (List ProfilePoint)
  | [], acc => .ok acc
  | r :: rest, acc =>
      match r.x, r.y with
      | some x, some y =>
          if bufferContains line b (x, y) then
            if lineLength line = 0 then .error (acc ++ [mkProfilePoint line r x y])
            else extractLoop line b rest (acc ++ [mkProfilePoint line r x y])
          else extractLoop line b rest acc
      | _, _ => .error acc

/-- `extract_profile_points` (lines 361-433): run the extraction loop from an
empty `self.profile_points`, then log either the point count or the
no-points-found message (lines 425-429); any exception is caught and the run
aborted (lines 431-433). -/
def extract_profile_points (line : List Pt) (b : ℝ) (source : List RawRecord) :
    ExtractOutcome :=
  match extractLoop line b source [] with
  | .error acc => .aborted acc
  | .ok acc =>
      .ok acc (if acc.isEmpty then .noPointsFound else .pointsExtracted acc.length)

/-- Python `min` over a (nonempty) list; the `0` for `[]` mirrors the `else 0`
of the guarded uses in the source. -/
def listMin : List ℝ → ℝ
  | [] => 0
  | x :: xs => xs.foldl min x

/-- Python `max` over a (nonempty) list; the `0` for `[]` mirrors the `else 0`
of the guarded uses in the source. -/
def listMax : List ℝ → ℝ
  | [] => 0
  | x :: xs => xs.foldl max x

/-- Model of `np.mean`: the arithmetic mean. -/
def mean (l : List ℝ) : ℝ := l.sum / l.length

/-- Model of `np.std`: the population standard deviation. -/
def popStd (l : List ℝ) : ℝ :=
  Real.sqrt ((l.map (fun x => (x - mean l) ^ 2)).sum / l.length)

/-- The `elevation_stats` dict literal of `compute_basic_statistics`
(lines 475-481), with its per-entry `if elevations else 0` guards. -/
def elevationStatsDict (elevations : List ℝ) : List (String × ℝ) :=
  [("min", if elevations.isEmpty then 0 else listMin elevations),
   ("max", if elevations.isEmpty then 0 else listMax elevations),
   ("mean", if elevations.isEmpty then 0 else mean elevations),
   ("std", if elevations.isEmpty then 0 else popStd elevations),
   ("range", if elevations.isEmpty then 0 else listMax elevations - listMin elevations)]

/-- The `intensity_stats` dict literal of `compute_basic_statistics`
(lines 485-490); note it has no `range` entry. -/
def intensityStatsDict (intensities : List ℝ) : List (String × ℝ) :=
  [("min", listMin intensities),
   ("max", listMax intensities),
   ("mean", mean intensities),
   ("std", popStd intensities)]

/-- The value built by `compute_basic_statistics` (lines 463-492). -/
structure BasicStats where
  point_count : ℕ
  profile_length : ℝ
  elevation_stats : List (String × ℝ)
  intensity_stats : Option (List (String × ℝ))

/-- `compute_basic_statistics` (lines 463-492): `{}` (here `none`) when
`self.profile_points` is empty; intensities are collected only from points
whose `intensity` is not `None` (line 470), and `intensity_stats` is added only
when that list is nonempty (line 484). -/
def compute_basic_statistics (pts : List ProfilePoint) : Option BasicStats :=
  if pts.isEmpty then none else
  some
    { point_count := pts.length
      profile_length :=
        if (pts.map ProfilePoint.distance).isEmpty then 0
        else listMax (pts.map ProfilePoint.distance) - listMin (pts.map ProfilePoint.distance)
      elevation_stats := elevationStatsDict (pts.map ProfilePoint.z)
      intensity_stats :=
        if (pts.filterMap ProfilePoint.intensity).isEmpty then none
        else some (intensityStatsDict (pts.filterMap ProfilePoint.intensity)) }

/-- Model of `math.degrees`: radians to degrees. -/
def degrees (x : ℝ) : ℝ := x * 180 / Real.pi

/-- The slope loop of `compute_terrain_analysis` (lines 500-507): for each
index `i` from `1`, when the two consecutive points have distinct `distance`,
append `math.degrees(math.atan((z2 - z1) / (d2 - d1)))`. -/
def slopesLoop : List ProfilePoint → List ℝ
  | p1 :: p2 :: rest =>
      (if p2.distance ≠ p1.distance
        then [degrees (Real.arctan ((p2.z - p1.z) / (p2.distance - p1.distance)))]
        else []) ++ slopesLoop (p2 :: rest)
  | _ => []

/-- The value built by `compute_terrain_analysis` (lines 509-517). -/
structure TerrainStats where
  slopes : List ℝ
  mean_slope : ℝ
  max_slope : ℝ
  min_slope : ℝ
  slope_std : ℝ

/-- `compute_terrain_analysis` (lines 494-517): `{}` (here `none`) when fewer
than 3 points; the four aggregates carry the `if slopes else 0` guards of
lines 512-515. -/
def compute_terrain_analysis (pts : List ProfilePoint) : Option TerrainStats :=
  if pts.length < 3 then none else
  some
    { slopes := slopesLoop pts
      mean_slope := if (slopesLoop pts).isEmpty then 0 else mean (slopesLoop pts)
      max_slope := if (slopesLoop pts).isEmpty then 0 else listMax (slopesLoop pts)
      min_slope := if (slopesLoop pts).isEmpty then 0 else listMin (slopesLoop pts)
      slope_std := if (slopesLoop pts).isEmpty then 0 else popStd (slopesLoop pts) }

/-- Model of `np.polyfit(x, y, 1)` (line 529): the degree-1 least-squares fit
`(slope, intercept)`, by the normal-equations closed form.  When all the `x`
are equal the fit is rank-deficient and `np.polyfit` returns no meaningful
coefficients (minimum-norm output under a `RankWarning`, or NaNs); the
embedding's `x / 0 = 0` convention then yields slope `0` and intercept
`mean y`. -/
def polyfit1 (xs ys : List ℝ) : ℝ × ℝ :=
  ((((xs.length : ℝ) * ((xs.zip ys).map (fun p => p.1 * p.2)).sum - xs.sum * ys.sum) /
      ((xs.length : ℝ) * (xs.map (fun x => x ^ 2)).sum - xs.sum ^ 2)),
   (ys.sum -
      (((xs.length : ℝ) * ((xs.zip ys).map (fun p => p.1 * p.2)).sum - xs.sum * ys.sum) /
        ((xs.length : ℝ) * (xs.map (fun x => x ^ 2)).sum - xs.sum ^ 2)) * xs.sum) /
     (xs.length : ℝ))

/-- The value built by `compute_roughness_analysis` (lines 536-544). -/
structure RoughnessStats where
  roughness_index : ℝ
  trend_slope : ℝ
  trend_intercept : ℝ
  max_deviation : ℝ
  deviations : List ℝ

/-- The residuals `elevations - trend_line` of `compute_roughness_analysis`
(lines 530-533), where the trend line evaluates the fitted polynomial at each
distance (`np.polyval(coeffs, distances)`). -/
def roughnessDeviations (pts : List ProfilePoint) : List ℝ :=
  ((pts.map ProfilePoint.z).zip
      ((pts.map ProfilePoint.distance).map
        (fun d => (polyfit1 (pts.map ProfilePoint.distance) (pts.map ProfilePoint.z)).1 * d +
          (polyfit1 (pts.map ProfilePoint.distance) (pts.map ProfilePoint.z)).2))).map
    (fun p => p.1 - p.2)

/-- `compute_roughness_analysis` (lines 519-544): `{}` (here `none`) when fewer
than 5 points; otherwise fit a degree-1 trend over (distance, elevation) and
aggregate the residuals. -/
def compute_roughness_analysis (pts : List ProfilePoint) : Option RoughnessStats :=
  if pts.length < 5 then none else
  some
    { roughness_index := popStd (roughnessDeviations pts)
      trend_slope := (polyfit1 (pts.map ProfilePoint.distance) (pts.map ProfilePoint.z)).1
      trend_intercept := (polyfit1 (pts.map ProfilePoint.distance) (pts.map ProfilePoint.z)).2
      max_deviation := listMax ((roughnessDeviations pts).map (fun x => |x|))
      deviations := roughnessDeviations pts }

/-- Sortedness by `distance`, as established by
`self.profile_points.sort(key=lambda p: p.distance)` (line 442) before the
analysis functions run. -/
def SortedByDistance (pts : List ProfilePoint) : Prop :=
  List.Chain' (fun p q => p.distance ≤ q.distance) pts

/-- Specification-side description of the slope sequence: for each consecutive
pair `(p[i-1], p[i])` of the sequence, in order, with
`p[i].distance != p[i-1].distance`, the slope angle
`atan((z[i] - z[i-1]) / (distance[i] - distance[i-1]))` in degrees; pairs with
equal distance contribute no entry. -/
def slopesSpec (pts : List ProfilePoint) : List ℝ :=
  ((pts.zip pts.tail).filter
      (fun pq => decide (pq.2.distance ≠ pq.1.distance))).map
    (fun pq => degrees (Real.arctan ((pq.2.z - pq.1.z) / (pq.2.distance - pq.1.distance))))

/-- The profile points produced for a source whose records are all processed
without an exception: each record with `X`, `Y` present contributes its point
when it passes the buffer test and nothing otherwise. -/
def processedPoints (line : List Pt) (b : ℝ) : List RawRecord → List ProfilePoint
  | [] => []
  | r :: rest =>
      (match r.x, r.y with
        | some x, some y =>
            if bufferContains line b (x, y) then [mkProfilePoint line r x y] else []
        | _, _ => []) ++ processedPoints line b rest

/-- The reference scenario's polyline, from `(0, 0)` to `(100, 0)`. -/
def lineEx : List Pt := [((0 : ℝ), (0 : ℝ)), ((100 : ℝ), (0 : ℝ))]

/-- A degenerate polyline: coincident start and end, zero length (what
`get_profile_line` builds from an extent with `xMinimum = xMaximum`). -/
def lineDeg : List Pt := [((0 : ℝ), (0 : ℝ)), ((0 : ℝ), (0 : ℝ))]

/-- Scenario raw record `(10, 2, 5, intensity = 50)`. -/
def recA : RawRecord := ⟨some 10, some 2, some 5, some 50, none⟩

/-- Scenario raw record `(50, 1, 8, intensity = 60)`. -/
def recB : RawRecord := ⟨some 50, some 1, some 8, some 60, none⟩

/-- Scenario raw record `(90, -3, 6, intensity = None)`. -/
def recC : RawRecord := ⟨some 90, some (-3), some 6, none, none⟩

/-- Scenario raw record at `(10, 20)`, farther than the buffer from the line. -/
def recFar : RawRecord := ⟨some 10, some 20, some 3, none, none⟩

/-- A raw record whose `X` field is missing (malformed). -/
def recBad : RawRecord := ⟨none, some 1, some 1, none, none⟩

/-- A raw record at `(1, 1)`, within buffer distance 5 of the origin. -/
def recNear : RawRecord := ⟨some 1, some 1, some 3, none, none⟩

/-- A raw record with `X`, `Y` present but no `Z` field. -/
def recNoZ : RawRecord := ⟨some 10, some 2, none, none, none⟩

/-- A profile point at a given distance and elevation (planar position at the
origin, no optional fields). -/
def ptAt (d z : ℝ) : ProfilePoint := { x := 0, y := 0, z := z, distance := d }

/-- Five profile points with equal `distance = 1` and elevations exactly on the
line `z = 2 * distance + 5`. -/
def ptsCoincident : List ProfilePoint := List.replicate 5 (ptAt 1 7)

/-- Five profile points with distances `0, 1, 2, 3, 4` and elevations exactly
`2 * distance + 5`. -/
def ptsLinear : List ProfilePoint :=
  [ptAt 0 5, ptAt 1 7, ptAt 2 9, ptAt 3 11, ptAt 4 13]

/-- Three distance-sorted profile points with distinct distances. -/
def ptsTerrain : List ProfilePoint := [ptAt 0 0, ptAt 1 1, ptAt 2 0]

/-- Two profile points carrying intensities `50` and `60`. -/
def ptsIntensity : List ProfilePoint :=
  [{ x := 10, y := 2, z := 5, distance := 10, intensity := some 50 },
   { x := 50, y := 1, z := 8, distance := 50, intensity := some 60 }]

/-- The `intensity_stats` component of the basic statistics of a point list. -/
def intensityStatsOf (pts : List ProfilePoint) : Option (List (String × ℝ)) :=
  (compute_basic_statistics pts).bind BasicStats.intensity_stats

end

noncomputable section

/-! ### Step lemmas for the extraction loop -/

theorem extractLoop_malformed (line : List Pt) (b : ℝ) (r : RawRecord)
    (rest : List RawRecord) (acc : List ProfilePoint)
    (h : r.x = none ∨ r.y = none) :
    extractLoop line b (r :: rest) acc = .error acc := by
  obtain ⟨x, y, z, i, c⟩ := r
  simp only at h
  rcases h with rfl | rfl
  · cases y <;> rfl
  · cases x <;> rfl

theorem extractLoop_accepted (line : List Pt) (b : ℝ) (r : RawRecord)
    (rest : List RawRecord) (acc : List ProfilePoint) (x y : ℝ)
    (hx : r.x = some x) (hy : r.y = some y)
    (hc : bufferContains line b (x, y)) (hlen : lineLength line ≠ 0) :
    extractLoop line b (r :: rest) acc =
      extractLoop line b rest (acc ++ [mkProfilePoint line r x y]) := by
  obtain ⟨x0, y0, z, i, c⟩ := r
  simp only at hx hy
  subst hx; subst hy
  simp only [extractLoop]
  rw [if_pos hc, if_neg hlen]

theorem extractLoop_accepted_degenerate (line : List Pt) (b : ℝ) (r : RawRecord)
    (rest : List RawRecord) (acc : List ProfilePoint) (x y : ℝ)
    (hx : r.x = some x) (hy : r.y = some y)
    (hc : bufferContains line b (x, y)) (hlen : lineLength line = 0) :
    extractLoop line b (r :: rest) acc = .error (acc ++ [mkProfilePoint line r x y]) := by
  obtain ⟨x0, y0, z, i, c⟩ := r
  simp only at hx hy
  subst hx; subst hy
  simp only [extractLoop]
  rw [if_pos hc, if_pos hlen]

theorem extractLoop_rejected (line : List Pt) (b : ℝ) (r : RawRecord)
    (rest : List RawRecord) (acc : List ProfilePoint) (x y : ℝ)
    (hx : r.x = some x) (hy : r.y = some y)
    (hc : ¬ bufferContains line b (x, y)) :
    extractLoop line b (r :: rest) acc = extractLoop line b rest acc := by
  obtain ⟨x0, y0, z, i, c⟩ := r
  simp only at hx hy
  subst hx; subst hy
  simp only [extractLoop]
  rw [if_neg hc]

/-! ### Evaluation lemmas for the scenario geometry -/

theorem segLen_lineEx : segLen ((0 : ℝ), (0 : ℝ)) ((100 : ℝ), (0 : ℝ)) = 100 := by
  unfold segLen sqDist
  norm_num
  rw [show (10000 : ℝ) = 100 ^ 2 by norm_num]
  exact Real.sqrt_sq (by norm_num)

theorem lineLength_lineEx : lineLength lineEx = 100 := by
  show List.sum [segLen ((0 : ℝ), (0 : ℝ)) ((100 : ℝ), (0 : ℝ))] = 100
  rw [segLen_lineEx]
  simp

/-! ### C6: behaviour on an empty raw source -/

/-- C6 counterexample: with the scenario polyline and an empty raw source the
extraction does not fail: it completes normally (no exception of any kind, in
particular no `EmptyInputError`) with an empty point list and the
no-points-found log message. -/
theorem empty_source_no_error_counterexample :
    extract_profile_points lineEx 5 [] = .ok [] .noPointsFound := rfl

/-- C6 amended: if the raw point source yields zero records, extraction does
not raise; it completes normally with an empty point list, logging the
no-points-found message (there is no `EmptyInputError` anywhere in the code). -/
theorem empty_source_completes_without_error (line : List Pt) (b : ℝ) :
    extract_profile_points line b [] = .ok [] .noPointsFound := rfl

/-! ### C4: presence thresholds of the statistic groups -/

/-- C4: with exactly 2 points both the terrain and the roughness group are
absent (`{}` merged into the result, modelled as `none`); with exactly 4 points
the terrain group is present and the roughness group absent; with 5 or more
points both are present.  Absence is a returned value, not an error. -/
theorem stat_groups_presence_thresholds (pts : List ProfilePoint) :
    (pts.length = 2 →
      compute_terrain_analysis pts = none ∧ compute_roughness_analysis pts = none) ∧
    (pts.length = 4 →
      (compute_terrain_analysis pts).isSome = true ∧ compute_roughness_analysis pts = none) ∧
    (5 ≤ pts.length →
      (compute_terrain_analysis pts).isSome = true ∧
        (compute_roughness_analysis pts).isSome = true) := by
  refine ⟨fun h => ?_, fun h => ?_, fun h => ?_⟩
  · have h3 : pts.length < 3 := by omega
    have h5 : pts.length < 5 := by omega
    simp [compute_terrain_analysis, compute_roughness_analysis, h3, h5]
  · have h3 : ¬ pts.length < 3 := by omega
    have h5 : pts.length < 5 := by omega
    simp [compute_terrain_analysis, compute_roughness_analysis, h3, h5]
  · have h3 : ¬ pts.length < 3 := by omega
    have h5 : ¬ pts.length < 5 := by omega
    simp [compute_terrain_analysis, compute_roughness_analysis, h3, h5]

/-- Witness for C4 at concrete lists of lengths 2, 4 and 5. -/
theorem stat_groups_presence_thresholds_witness :
    (compute_terrain_analysis (List.replicate 2 (ptAt 0 0)) = none ∧
      compute_roughness_analysis (List.replicate 2 (ptAt 0 0)) = none) ∧
    ((compute_terrain_analysis (List.replicate 4 (ptAt 0 0))).isSome = true ∧
      compute_roughness_analysis (List.replicate 4 (ptAt 0 0)) = none) ∧
    ((compute_terrain_analysis (List.replicate 5 (ptAt 0 0))).isSome = true ∧
      (compute_roughness_analysis (List.replicate 5 (ptAt 0 0))).isSome = true) :=
  ⟨(stat_groups_presence_thresholds _).1 (by simp),
   (stat_groups_presence_thresholds _).2.1 (by simp),
   (stat_groups_presence_thresholds _).2.2 (by simp)⟩

/-! ### C10: profile_length is the span of the extracted distances -/

/-- C10: the `profile_length` field equals the maximum minus the minimum of the
points' `distance` values; with an empty point list there is no result at all
(the function returns `{}`), matching the `if distances else 0` guard being
unreachable.  The last two conjuncts contrast it with the polyline length: two
points spanning 30 m along the 100 m scenario line give `profile_length = 30`,
not 100. -/
theorem profile_length_is_distance_span (pts : List ProfilePoint) (hne : pts ≠ []) :
    (compute_basic_statistics pts).map BasicStats.profile_length =
      some (listMax (pts.map ProfilePoint.distance) -
        listMin (pts.map ProfilePoint.distance)) ∧
    compute_basic_statistics [] = none ∧
    (compute_basic_statistics [ptAt 0 0, ptAt 30 0]).map BasicStats.profile_length =
      some 30 ∧
    lineLength lineEx = 100 := by
  refine ⟨?_, rfl, ?_, lineLength_lineEx⟩
  · simp [compute_basic_statistics, List.isEmpty_iff, hne]
  · simp [compute_basic_statistics, ptAt, listMax, listMin]

/-- Witness for C10 at a concrete two-point list. -/
theorem profile_length_is_distance_span_witness :
    (compute_basic_statistics [ptAt 0 0, ptAt 30 0]).map BasicStats.profile_length =
      some (listMax ([ptAt 0 0, ptAt 30 0].map ProfilePoint.distance) -
        listMin ([ptAt 0 0, ptAt 30 0].map ProfilePoint.distance)) ∧
    compute_basic_statistics [] = none ∧
    (compute_basic_statistics [ptAt 0 0, ptAt 30 0]).map BasicStats.profile_length =
      some 30 ∧
    lineLength lineEx = 100 :=
  profile_length_is_distance_span [ptAt 0 0, ptAt 30 0] (by simp)

end

noncomputable section

/-! ### Pointwise evaluation of the scenario geometry -/

theorem sqDistToLine_lineEx (p : Pt) :
    sqDistToLine lineEx p = sqDistToSeg ((0 : ℝ), (0 : ℝ)) ((100 : ℝ), (0 : ℝ)) p := rfl

theorem segParam_A : segParam ((0 : ℝ), (0 : ℝ)) ((100 : ℝ), (0 : ℝ)) (10, 2) = 1 / 10 := by
  unfold segParam sqDist
  norm_num [min_def, max_def]

theorem sqDistToSeg_A : sqDistToSeg ((0 : ℝ), (0 : ℝ)) ((100 : ℝ), (0 : ℝ)) (10, 2) = 4 := by
  unfold sqDistToSeg segClosest
  rw [segParam_A]
  unfold sqDist
  norm_num

theorem segParam_B : segParam ((0 : ℝ), (0 : ℝ)) ((100 : ℝ), (0 : ℝ)) (50, 1) = 1 / 2 := by
  unfold segParam sqDist
  norm_num [min_def, max_def]

theorem sqDistToSeg_B : sqDistToSeg ((0 : ℝ), (0 : ℝ)) ((100 : ℝ), (0 : ℝ)) (50, 1) = 1 := by
  unfold sqDistToSeg segClosest
  rw [segParam_B]
  unfold sqDist
  norm_num

theorem segParam_C : segParam ((0 : ℝ), (0 : ℝ)) ((100 : ℝ), (0 : ℝ)) (90, -3) = 9 / 10 := by
  unfold segParam sqDist
  norm_num [min_def, max_def]

theorem sqDistToSeg_C : sqDistToSeg ((0 : ℝ), (0 : ℝ)) ((100 : ℝ), (0 : ℝ)) (90, -3) = 9 := by
  unfold sqDistToSeg segClosest
  rw [segParam_C]
  unfold sqDist
  norm_num

theorem segParam_far : segParam ((0 : ℝ), (0 : ℝ)) ((100 : ℝ), (0 : ℝ)) (10, 20) = 1 / 10 := by
  unfold segParam sqDist
  norm_num [min_def, max_def]

theorem sqDistToSeg_far : sqDistToSeg ((0 : ℝ), (0 : ℝ)) ((100 : ℝ), (0 : ℝ)) (10, 20) = 400 := by
  unfold sqDistToSeg segClosest
  rw [segParam_far]
  unfold sqDist
  norm_num

theorem segParam_V0 : segParam ((0 : ℝ), (0 : ℝ)) ((100 : ℝ), (0 : ℝ)) (0, 0) = 0 := by
  unfold segParam sqDist
  norm_num

theorem segParam_V100 : segParam ((0 : ℝ), (0 : ℝ)) ((100 : ℝ), (0 : ℝ)) (100, 0) = 1 := by
  unfold segParam sqDist
  norm_num [min_def, max_def]

theorem contains_A : bufferContains lineEx 5 (10, 2) := by
  show sqDistToLine lineEx (10, 2) ≤ 5 ^ 2
  rw [sqDistToLine_lineEx, sqDistToSeg_A]
  norm_num

theorem contains_B : bufferContains lineEx 5 (50, 1) := by
  show sqDistToLine lineEx (50, 1) ≤ 5 ^ 2
  rw [sqDistToLine_lineEx, sqDistToSeg_B]
  norm_num

theorem contains_C : bufferContains lineEx 5 (90, -3) := by
  show sqDistToLine lineEx (90, -3) ≤ 5 ^ 2
  rw [sqDistToLine_lineEx, sqDistToSeg_C]
  norm_num

theorem not_contains_far : ¬ bufferContains lineEx 5 (10, 20) := by
  show ¬ sqDistToLine lineEx (10, 20) ≤ 5 ^ 2
  rw [sqDistToLine_lineEx, sqDistToSeg_far]
  norm_num

theorem lineLength_lineEx_ne : lineLength lineEx ≠ 0 := by
  rw [lineLength_lineEx]
  norm_num

theorem closestVertex_A : closestVertex lineEx ((10 : ℝ), (2 : ℝ)) = ((0 : ℝ), (0 : ℝ)) := by
  show (if sqDist (10, 2) (100, 0) < sqDist (10, 2) (0, 0) then ((100 : ℝ), (0 : ℝ))
    else ((0 : ℝ), (0 : ℝ))) = ((0 : ℝ), (0 : ℝ))
  rw [if_neg]
  unfold sqDist
  norm_num

theorem closestVertex_B : closestVertex lineEx ((50 : ℝ), (1 : ℝ)) = ((0 : ℝ), (0 : ℝ)) := by
  show (if sqDist (50, 1) (100, 0) < sqDist (50, 1) (0, 0) then ((100 : ℝ), (0 : ℝ))
    else ((0 : ℝ), (0 : ℝ))) = ((0 : ℝ), (0 : ℝ))
  rw [if_neg]
  unfold sqDist
  norm_num

theorem closestVertex_C : closestVertex lineEx ((90 : ℝ), (-3 : ℝ)) = ((100 : ℝ), (0 : ℝ)) := by
  show (if sqDist (90, -3) (100, 0) < sqDist (90, -3) (0, 0) then ((100 : ℝ), (0 : ℝ))
    else ((0 : ℝ), (0 : ℝ))) = ((100 : ℝ), (0 : ℝ))
  rw [if_pos]
  unfold sqDist
  norm_num

theorem lineLocatePoint_lineEx (p : Pt) :
    lineLocatePoint lineEx p =
      segParam ((0 : ℝ), (0 : ℝ)) ((100 : ℝ), (0 : ℝ)) p *
        segLen ((0 : ℝ), (0 : ℝ)) ((100 : ℝ), (0 : ℝ)) := rfl

theorem locate_A : lineLocatePoint lineEx (10, 2) = 10 := by
  rw [lineLocatePoint_lineEx, segParam_A, segLen_lineEx]
  norm_num

theorem locate_B : lineLocatePoint lineEx (50, 1) = 50 := by
  rw [lineLocatePoint_lineEx, segParam_B, segLen_lineEx]
  norm_num

theorem locate_C : lineLocatePoint lineEx (90, -3) = 90 := by
  rw [lineLocatePoint_lineEx, segParam_C, segLen_lineEx]
  norm_num

theorem locate_V0 : lineLocatePoint lineEx (0, 0) = 0 := by
  rw [lineLocatePoint_lineEx, segParam_V0]
  norm_num

theorem locate_V100 : lineLocatePoint lineEx (100, 0) = 100 := by
  rw [lineLocatePoint_lineEx, segParam_V100, segLen_lineEx]
  norm_num

end

noncomputable section

/-! ### Extraction on the reference scenario -/

theorem extractLoop_scenario :
    extractLoop lineEx 5 [recA, recB, recC] [] =
      .ok [mkProfilePoint lineEx recA 10 2, mkProfilePoint lineEx recB 50 1,
        mkProfilePoint lineEx recC 90 (-3)] := by
  rw [extractLoop_accepted lineEx 5 recA [recB, recC] [] 10 2 rfl rfl contains_A
    lineLength_lineEx_ne]
  rw [show ([] : List ProfilePoint) ++ [mkProfilePoint lineEx recA 10 2] =
    [mkProfilePoint lineEx recA 10 2] from rfl]
  rw [extractLoop_accepted lineEx 5 recB [recC] _ 50 1 rfl rfl contains_B
    lineLength_lineEx_ne]
  rw [show [mkProfilePoint lineEx recA 10 2] ++ [mkProfilePoint lineEx recB 50 1] =
    [mkProfilePoint lineEx recA 10 2, mkProfilePoint lineEx recB 50 1] from rfl]
  rw [extractLoop_accepted lineEx 5 recC [] _ 90 (-3) rfl rfl contains_C
    lineLength_lineEx_ne]
  rfl

theorem extract_scenario :
    extract_profile_points lineEx 5 [recA, recB, recC] =
      .ok [mkProfilePoint lineEx recA 10 2, mkProfilePoint lineEx recB 50 1,
        mkProfilePoint lineEx recC 90 (-3)] (.pointsExtracted 3) := by
  unfold extract_profile_points
  rw [extractLoop_scenario]
  rfl

theorem distance_A : (mkProfilePoint lineEx recA 10 2).distance = 0 := by
  show lineLocatePoint lineEx (closestVertex lineEx (10, 2)) = 0
  rw [closestVertex_A, locate_V0]

theorem distance_B : (mkProfilePoint lineEx recB 50 1).distance = 0 := by
  show lineLocatePoint lineEx (closestVertex lineEx (50, 1)) = 0
  rw [closestVertex_B, locate_V0]

theorem distance_C : (mkProfilePoint lineEx recC 90 (-3)).distance = 100 := by
  show lineLocatePoint lineEx (closestVertex lineEx (90, -3)) = 100
  rw [closestVertex_C, locate_V100]

/-! ### C1: the assigned distance is the arc position of the nearest vertex -/

/-- C1 (code bug, evaluation at the failing input): on the reference scenario
(polyline `(0,0)-(100,0)`, buffer `5`, raw points `(10,2,5)`, `(50,1,8)`,
`(90,-3,6)`) the code assigns distances `0, 0, 100`: line 402 takes the nearest
polyline *vertex* (`closestVertex`) and line 403 the arc position of that
vertex, so every distance snaps to a vertex position.  The arc-length distance
to the point on the polyline nearest to each record — the spec's `project`,
i.e. `lineLocatePoint` applied to the record position itself — is `10, 50, 90`,
the values the claim requires. -/
theorem distance_is_nearest_vertex_not_projection :
    (extract_profile_points lineEx 5 [recA, recB, recC]).points.map
        ProfilePoint.distance = [0, 0, 100] ∧
    [lineLocatePoint lineEx (10, 2), lineLocatePoint lineEx (50, 1),
      lineLocatePoint lineEx (90, -3)] = [10, 50, 90] := by
  constructor
  · rw [extract_scenario]
    show [(mkProfilePoint lineEx recA 10 2).distance,
      (mkProfilePoint lineEx recB 50 1).distance,
      (mkProfilePoint lineEx recC 90 (-3)).distance] = [0, 0, 100]
    rw [distance_A, distance_B, distance_C]
  · rw [locate_A, locate_B, locate_C]

end

noncomputable section

/-! ### C9: the buffer filter -/

theorem extractLoop_invariant (line : List Pt) (b : ℝ) (P : ProfilePoint → Prop)
    (hP : ∀ (r : RawRecord) (x y : ℝ), r.x = some x → r.y = some y →
      bufferContains line b (x, y) → P (mkProfilePoint line r x y)) :
    ∀ (src : List RawRecord) (acc : List ProfilePoint), (∀ p ∈ acc, P p) →
      (∀ l, extractLoop line b src acc = .ok l → ∀ p ∈ l, P p) ∧
      (∀ l, extractLoop line b src acc = .error l → ∀ p ∈ l, P p) := by
  intro src
  induction src with
  | nil =>
      intro acc hacc
      constructor
      · intro l hl
        injection hl with h
        exact h ▸ hacc
      · intro l hl
        exact absurd hl (by simp [extractLoop])
  | cons r rest ih =>
      intro acc hacc
      rcases hax : r.x with _ | x
      · rw [extractLoop_malformed line b r rest acc (Or.inl hax)]
        constructor
        · intro l hl
          exact absurd hl (by simp)
        · intro l hl
          injection hl with h
          exact h ▸ hacc
      · rcases hay : r.y with _ | y
        · rw [extractLoop_malformed line b r rest acc (Or.inr hay)]
          constructor
          · intro l hl
            exact absurd hl (by simp)
          · intro l hl
            injection hl with h
            exact h ▸ hacc
        · by_cases hc : bufferContains line b (x, y)
          · have hmk : ∀ p ∈ acc ++ [mkProfilePoint line r x y], P p := by
              intro p hp
              rcases List.mem_append.mp hp with hp | hp
              · exact hacc p hp
              · rw [List.mem_singleton.mp hp]
                exact hP r x y hax hay hc
            by_cases hl : lineLength line = 0
            · rw [extractLoop_accepted_degenerate line b r rest acc x y hax hay hc hl]
              constructor
              · intro l hl2
                exact absurd hl2 (by simp)
              · intro l hl2
                injection hl2 with h
                exact h ▸ hmk
            · rw [extractLoop_accepted line b r rest acc x y hax hay hc hl]
              exact ih _ hmk
          · rw [extractLoop_rejected line b r rest acc x y hax hay hc]
            exact ih acc hacc

theorem extractLoop_far_noop (line : List Pt) (b : ℝ) (r : RawRecord) (x y : ℝ)
    (hx : r.x = some x) (hy : r.y = some y) (hfar : ¬ bufferContains line b (x, y)) :
    ∀ (pre post : List RawRecord) (acc : List ProfilePoint),
      extractLoop line b (pre ++ r :: post) acc = extractLoop line b (pre ++ post) acc := by
  intro pre
  induction pre with
  | nil =>
      intro post acc
      exact extractLoop_rejected line b r post acc x y hx hy hfar
  | cons a pre ih =>
      intro post acc
      simp only [List.cons_append]
      rcases hax : a.x with _ | ax
      · rw [extractLoop_malformed line b a _ acc (Or.inl hax),
          extractLoop_malformed line b a _ acc (Or.inl hax)]
      · rcases hay : a.y with _ | ay
        · rw [extractLoop_malformed line b a _ acc (Or.inr hay),
            extractLoop_malformed line b a _ acc (Or.inr hay)]
        · by_cases hc : bufferContains line b (ax, ay)
          · by_cases hl : lineLength line = 0
            · rw [extractLoop_accepted_degenerate line b a _ acc ax ay hax hay hc hl,
                extractLoop_accepted_degenerate line b a _ acc ax ay hax hay hc hl]
            · rw [extractLoop_accepted line b a _ acc ax ay hax hay hc hl,
                extractLoop_accepted line b a _ acc ax ay hax hay hc hl]
              exact ih post _
          · rw [extractLoop_rejected line b a _ acc ax ay hax hay hc,
              extractLoop_rejected line b a _ acc ax ay hax hay hc]
            exact ih post acc

/-- C9: (i) every `ProfilePoint` produced by extraction — whether the run
completed or was aborted — has its planar position within `buffer_distance` of
the reference polyline (squared distance at most `b ^ 2`), by construction of
the `contains` filter; (ii) a raw record whose position fails the buffer test
is dropped from the output entirely and without error: extraction on a source
containing it equals extraction on the source with it removed. -/
theorem buffer_filter_invariant (line : List Pt) (b : ℝ) :
    (∀ src : List RawRecord, ∀ p ∈ (extract_profile_points line b src).points,
        sqDistToLine line (p.x, p.y) ≤ b ^ 2) ∧
    (∀ (pre post : List RawRecord) (r : RawRecord) (x y : ℝ),
        r.x = some x → r.y = some y → ¬ bufferContains line b (x, y) →
        extract_profile_points line b (pre ++ r :: post) =
          extract_profile_points line b (pre ++ post)) := by
  constructor
  · intro src
    have hinv := extractLoop_invariant line b
      (fun p => sqDistToLine line (p.x, p.y) ≤ b ^ 2)
      (fun r x y _ _ hc => hc) src [] (by simp)
    unfold extract_profile_points
    rcases hres : extractLoop line b src [] with l | l
    · exact hinv.2 l hres
    · exact hinv.1 l hres
  · intro pre post r x y hx hy hfar
    unfold extract_profile_points
    rw [extractLoop_far_noop line b r x y hx hy hfar]

/-- Witness for C9: the scenario's three accepted points all lie within the
buffer, and the far record at `(10, 20)` is a no-op for the extraction. -/
theorem buffer_filter_invariant_witness :
    (∀ p ∈ (extract_profile_points lineEx 5 [recA, recB, recC]).points,
        sqDistToLine lineEx (p.x, p.y) ≤ 5 ^ 2) ∧
    extract_profile_points lineEx 5 ([] ++ recFar :: []) =
      extract_profile_points lineEx 5 ([] ++ []) :=
  ⟨(buffer_filter_invariant lineEx 5).1 [recA, recB, recC],
   (buffer_filter_invariant lineEx 5).2 [] [] recFar 10 20 rfl rfl not_contains_far⟩

end

noncomputable section

/-! ### Evaluation lemmas for the degenerate polyline -/

theorem segParam_deg (p : Pt) :
    segParam ((0 : ℝ), (0 : ℝ)) ((0 : ℝ), (0 : ℝ)) p = 0 := by
  unfold segParam sqDist
  norm_num [min_def, max_def]

theorem sqDistToSeg_deg (p : Pt) :
    sqDistToSeg ((0 : ℝ), (0 : ℝ)) ((0 : ℝ), (0 : ℝ)) p = sqDist p (0, 0) := by
  unfold sqDistToSeg segClosest
  rw [segParam_deg]
  norm_num

theorem sqDistToLine_lineDeg (p : Pt) :
    sqDistToLine lineDeg p = sqDistToSeg ((0 : ℝ), (0 : ℝ)) ((0 : ℝ), (0 : ℝ)) p := rfl

theorem segLen_deg : segLen ((0 : ℝ), (0 : ℝ)) ((0 : ℝ), (0 : ℝ)) = 0 := by
  unfold segLen sqDist
  norm_num

theorem lineLength_lineDeg : lineLength lineDeg = 0 := by
  show List.sum [segLen ((0 : ℝ), (0 : ℝ)) ((0 : ℝ), (0 : ℝ))] = 0
  rw [segLen_deg]
  simp

theorem not_contains_far_deg : ¬ bufferContains lineDeg 5 (10, 20) := by
  show ¬ sqDistToLine lineDeg (10, 20) ≤ 5 ^ 2
  rw [sqDistToLine_lineDeg, sqDistToSeg_deg]
  unfold sqDist
  norm_num

theorem contains_near_deg : bufferContains lineDeg 5 (1, 1) := by
  show sqDistToLine lineDeg (1, 1) ≤ 5 ^ 2
  rw [sqDistToLine_lineDeg, sqDistToSeg_deg]
  unfold sqDist
  norm_num

/-! ### C7: a degenerate polyline is not rejected -/

/-- C7 counterexample: from an extent with `xMinimum = xMaximum` the pipeline
builds the zero-length polyline without any validation, and extraction over
that degenerate polyline raises no `InvalidGeometryError` (no such error
exists in the code): with a record outside the buffer it completes normally
with an empty result. -/
theorem degenerate_line_no_error_counterexample :
    get_profile_line ⟨0, 0, -10, 10⟩ = lineDeg ∧
    lineLength lineDeg = 0 ∧
    extract_profile_points lineDeg 5 [recFar] = .ok [] .noPointsFound := by
  refine ⟨?_, lineLength_lineDeg, ?_⟩
  · unfold get_profile_line Extent.centerY lineDeg
    norm_num
  · unfold extract_profile_points
    rw [extractLoop_rejected lineDeg 5 recFar [] [] 10 20 rfl rfl not_contains_far_deg]
    rfl

/-- C7 amended: a degenerate reference polyline is not rejected with a
construction error: `get_profile_line` builds the zero-length two-vertex line
with no validation; extraction over it completes normally (empty result) when
no record passes the buffer test, and when a record is accepted the
`ZeroDivisionError` from the progress computation aborts the run with the
partial point kept — in neither case is an `InvalidGeometryError` raised
(none exists in the code). -/
theorem degenerate_line_not_rejected (e : Extent) (he : e.xMin = e.xMax) :
    get_profile_line e =
      [(e.xMin, (e.yMin + e.yMax) / 2), (e.xMin, (e.yMin + e.yMax) / 2)] ∧
    lineLength (get_profile_line e) = 0 ∧
    extract_profile_points lineDeg 5 [recFar] = .ok [] .noPointsFound ∧
    extract_profile_points lineDeg 5 [recNear] =
      .aborted [mkProfilePoint lineDeg recNear 1 1] := by
  refine ⟨?_, ?_, ?_, ?_⟩
  · unfold get_profile_line Extent.centerY
    rw [← he]
  · unfold lineLength get_profile_line
    rw [← he]
    show List.sum [segLen (e.xMin, e.centerY) (e.xMin, e.centerY)] = 0
    unfold segLen sqDist
    norm_num
  · unfold extract_profile_points
    rw [extractLoop_rejected lineDeg 5 recFar [] [] 10 20 rfl rfl not_contains_far_deg]
    rfl
  · unfold extract_profile_points
    rw [extractLoop_accepted_degenerate lineDeg 5 recNear [] [] 1 1 rfl rfl
      contains_near_deg lineLength_lineDeg]
    rfl

/-- Witness for C7 at the concrete degenerate extent. -/
theorem degenerate_line_not_rejected_witness :
    get_profile_line ⟨0, 0, -10, 10⟩ =
      [((0 : ℝ), ((-10 : ℝ) + 10) / 2), ((0 : ℝ), ((-10 : ℝ) + 10) / 2)] ∧
    lineLength (get_profile_line ⟨0, 0, -10, 10⟩) = 0 ∧
    extract_profile_points lineDeg 5 [recFar] = .ok [] .noPointsFound ∧
    extract_profile_points lineDeg 5 [recNear] =
      .aborted [mkProfilePoint lineDeg recNear 1 1] :=
  degenerate_line_not_rejected ⟨0, 0, -10, 10⟩ rfl

end

noncomputable section

/-! ### C8: a malformed record aborts the extraction -/

theorem extractLoop_abort_at_malformed (line : List Pt) (b : ℝ)
    (hlen : lineLength line ≠ 0) (bad : RawRecord)
    (hbad : bad.x = none ∨ bad.y = none) :
    ∀ pre : List RawRecord, (∀ r ∈ pre, r.x.isSome ∧ r.y.isSome) →
      ∀ (rest : List RawRecord) (acc : List ProfilePoint),
        extractLoop line b (pre ++ bad :: rest) acc =
          .error (acc ++ processedPoints line b pre) := by
  intro pre
  induction pre with
  | nil =>
      intro _ rest acc
      simp only [List.nil_append, processedPoints, List.append_nil]
      exact extractLoop_malformed line b bad rest acc hbad
  | cons a pre ih =>
      intro hwf rest acc
      obtain ⟨hax0, hay0⟩ := hwf a (List.mem_cons_self a pre)
      rcases Option.isSome_iff_exists.mp hax0 with ⟨ax, hax⟩
      rcases Option.isSome_iff_exists.mp hay0 with ⟨ay, hay⟩
      have hwf2 : ∀ r ∈ pre, r.x.isSome ∧ r.y.isSome :=
        fun r hr => hwf r (List.mem_cons_of_mem a hr)
      simp only [List.cons_append]
      by_cases hc : bufferContains line b (ax, ay)
      · rw [extractLoop_accepted line b a _ acc ax ay hax hay hc hlen,
          ih hwf2 rest _]
        congr 1
        simp [processedPoints, hax, hay, hc]
      · rw [extractLoop_rejected line b a _ acc ax ay hax hay hc, ih hwf2 rest acc]
        congr 1
        simp [processedPoints, hax, hay, hc]

/-- C8 counterexample: with the scenario polyline and the source
`[recBad, recA]` (a record with no `X` field, then a well-formed record inside
the buffer) extraction is aborted with an empty point list: the malformed
record is not skipped-and-counted, it aborts the whole extraction, and the
well-formed record after it is never processed. -/
theorem malformed_record_aborts_counterexample :
    extract_profile_points lineEx 5 [recBad, recA] = .aborted [] := by
  unfold extract_profile_points
  rw [extractLoop_malformed lineEx 5 recBad [recA] [] (Or.inl rfl)]

/-- C8 amended: a raw record with a missing/non-numeric `X` or `Y` raises at
the field access; the method-level handler catches it and the run is aborted:
the points of the well-formed prefix are kept, every record after the
malformed one is dropped unprocessed, and no count of skipped records is
produced.  A record with a missing `Z` is not malformed: `z` defaults to `0`
(second conjunct). -/
theorem malformed_record_aborts (line : List Pt) (b : ℝ)
    (hlen : lineLength line ≠ 0) (pre : List RawRecord)
    (hpre : ∀ r ∈ pre, r.x.isSome ∧ r.y.isSome) (bad : RawRecord)
    (hbad : bad.x = none ∨ bad.y = none) (rest : List RawRecord) :
    extract_profile_points line b (pre ++ bad :: rest) =
      .aborted (processedPoints line b pre) ∧
    extract_profile_points lineEx 5 [recNoZ] =
      .ok [⟨10, 2, 0, 0, none, none, none, some (10, 2, 0)⟩] (.pointsExtracted 1) := by
  constructor
  · unfold extract_profile_points
    rw [extractLoop_abort_at_malformed line b hlen bad hbad pre hpre rest []]
    rw [List.nil_append]
  · unfold extract_profile_points
    rw [extractLoop_accepted lineEx 5 recNoZ [] [] 10 2 rfl rfl contains_A
      lineLength_lineEx_ne]
    have hmk : mkProfilePoint lineEx recNoZ 10 2 =
        ⟨10, 2, 0, 0, none, none, none, some (10, 2, 0)⟩ := by
      unfold mkProfilePoint
      rw [closestVertex_A, locate_V0]
      rfl
    rw [show ([] : List ProfilePoint) ++ [mkProfilePoint lineEx recNoZ 10 2] =
      [mkProfilePoint lineEx recNoZ 10 2] from rfl]
    rw [hmk]
    rfl

/-- Witness for C8: well-formed prefix `[recA]`, malformed record `recBad`,
suffix `[recB]`. -/
theorem malformed_record_aborts_witness :
    extract_profile_points lineEx 5 ([recA] ++ recBad :: [recB]) =
      .aborted (processedPoints lineEx 5 [recA]) ∧
    extract_profile_points lineEx 5 [recNoZ] =
      .ok [⟨10, 2, 0, 0, none, none, none, some (10, 2, 0)⟩] (.pointsExtracted 1) :=
  malformed_record_aborts lineEx 5 lineLength_lineEx_ne [recA]
    (by simp [recA]) recBad (Or.inl rfl) [recB]

end

noncomputable section

/-! ### C5: the intensity statistics group -/

/-- C5 counterexample: for two points carrying intensities the group is
present, but unlike `elevation_stats` it has no `range` entry — its shape is
`{min, max, mean, std}`, not `{min, max, mean, std, range}` as the claim
states. -/
theorem intensity_stats_shape_counterexample :
    (intensityStatsOf ptsIntensity).isSome = true ∧
    ((intensityStatsOf ptsIntensity).getD []).lookup "range" = none ∧
    ((((compute_basic_statistics ptsIntensity).map
      BasicStats.elevation_stats).getD []).lookup "range").isSome = true :=
  ⟨rfl, rfl, rfl⟩

/-- C5 amended: `intensity_stats` is present iff at least one point carries an
intensity value; it is computed only over the points whose intensity is
present (absent intensities are excluded by the `filterMap`, never read as 0);
its fields are `min`, `max`, `mean` and `std` — without the `range` field
`elevation_stats` has. -/
theorem intensity_stats_presence_and_values (pts : List ProfilePoint)
    (hne : pts ≠ []) :
    (intensityStatsOf pts ≠ none ↔ pts.filterMap ProfilePoint.intensity ≠ []) ∧
    (pts.filterMap ProfilePoint.intensity ≠ [] →
      intensityStatsOf pts =
        some (intensityStatsDict (pts.filterMap ProfilePoint.intensity))) ∧
    intensityStatsDict (pts.filterMap ProfilePoint.intensity) =
      [("min", listMin (pts.filterMap ProfilePoint.intensity)),
       ("max", listMax (pts.filterMap ProfilePoint.intensity)),
       ("mean", mean (pts.filterMap ProfilePoint.intensity)),
       ("std", popStd (pts.filterMap ProfilePoint.intensity))] := by
  refine ⟨?_, ?_, rfl⟩
  · by_cases hi : pts.filterMap ProfilePoint.intensity = [] <;>
      simp [intensityStatsOf, compute_basic_statistics, List.isEmpty_iff, hne, hi]
  · intro hi
    simp [intensityStatsOf, compute_basic_statistics, List.isEmpty_iff, hne, hi]

/-- Witness for C5 at the two intensity-carrying scenario points: the group is
present and its mean is 55 (the mean over the present intensities only; had
the absent intensity been read as 0 over three points the mean would not be
55). -/
theorem intensity_stats_presence_and_values_witness :
    intensityStatsOf ptsIntensity ≠ none ∧
    intensityStatsOf ptsIntensity =
      some [("min", listMin [50, 60]), ("max", listMax [50, 60]),
        ("mean", 55), ("std", popStd [50, 60])] := by
  have h := intensity_stats_presence_and_values ptsIntensity (by simp [ptsIntensity])
  have hfm : ptsIntensity.filterMap ProfilePoint.intensity = [50, 60] := rfl
  refine ⟨h.1.mpr (by rw [hfm]; simp), ?_⟩
  have h2 := h.2.1 (by rw [hfm]; simp)
  rw [h2, hfm]
  unfold intensityStatsDict
  have hmean : mean [(50 : ℝ), 60] = 55 := by
    unfold mean
    norm_num
  rw [hmean]

end

noncomputable section

/-! ### C2: terrain (slope) analysis -/

theorem slopesLoop_eq_spec (pts : List ProfilePoint) : slopesLoop pts = slopesSpec pts := by
  induction pts with
  | nil => rfl
  | cons p rest ih =>
      cases rest with
      | nil => rfl
      | cons q rrest =>
          by_cases h : q.distance = p.distance
          · simp only [slopesLoop, slopesSpec, List.tail_cons, List.zip_cons_cons,
              List.filter_cons] at ih ⊢
            simp [h, ih]
          · simp only [slopesLoop, slopesSpec, List.tail_cons, List.zip_cons_cons,
              List.filter_cons] at ih ⊢
            simp [h, ih]

/-- C2: for a distance-sorted sequence of at least 3 profile points the
terrain analysis is present and its `slopes` are exactly the per-consecutive-
pair slope angles `atan((z2 - z1) / (d2 - d1))` in degrees, in sequence order,
with equal-distance pairs skipped (they contribute no entry, and are not
counted as zero slope); when that slope sequence is nonempty, `mean_slope`,
`max_slope`, `min_slope` and `slope_std` are its mean, maximum, minimum and
population standard deviation. -/
theorem terrain_slopes_correct (pts : List ProfilePoint)
    (_hsort : SortedByDistance pts) (h3 : 3 ≤ pts.length)
    (hne : slopesSpec pts ≠ []) :
    compute_terrain_analysis pts =
      some { slopes := slopesSpec pts
             mean_slope := mean (slopesSpec pts)
             max_slope := listMax (slopesSpec pts)
             min_slope := listMin (slopesSpec pts)
             slope_std := popStd (slopesSpec pts) } := by
  unfold compute_terrain_analysis
  rw [if_neg (show ¬ pts.length < 3 by omega)]
  rw [slopesLoop_eq_spec]
  have hE : (slopesSpec pts).isEmpty = false := by
    simp [List.isEmpty_iff, hne]
  simp [hE]

/-- Witness for C2 at three concrete sorted points with distinct distances. -/
theorem terrain_slopes_correct_witness :
    compute_terrain_analysis ptsTerrain =
      some { slopes := slopesSpec ptsTerrain
             mean_slope := mean (slopesSpec ptsTerrain)
             max_slope := listMax (slopesSpec ptsTerrain)
             min_slope := listMin (slopesSpec ptsTerrain)
             slope_std := popStd (slopesSpec ptsTerrain) } := by
  refine terrain_slopes_correct ptsTerrain ?_ (by norm_num [ptsTerrain]) ?_
  · unfold SortedByDistance ptsTerrain
    norm_num [List.chain'_cons, ptAt]
  · unfold slopesSpec ptsTerrain
    norm_num [List.filter_cons, ptAt]
    simp

end

noncomputable section

/-! ### List-sum algebra for the least-squares fit -/

theorem sum_map_add_fun (l : List ℝ) (f g : ℝ → ℝ) :
    (l.map (fun x => f x + g x)).sum = (l.map f).sum + (l.map g).sum := by
  induction l with
  | nil => simp
  | cons a l ih =>
      simp only [List.map_cons, List.sum_cons, ih]
      ring

theorem sum_map_mul_left_fun (l : List ℝ) (c : ℝ) (f : ℝ → ℝ) :
    (l.map (fun x => c * f x)).sum = c * (l.map f).sum := by
  induction l with
  | nil => simp
  | cons a l ih =>
      simp only [List.map_cons, List.sum_cons, ih]
      ring

theorem sum_map_linear (l : List ℝ) (a b : ℝ) :
    (l.map (fun x => a * x + b)).sum = a * l.sum + b * l.length := by
  induction l with
  | nil => simp
  | cons x l ih =>
      simp only [List.map_cons, List.sum_cons, ih, List.length_cons]
      push_cast
      ring

theorem zip_map_mul (l : List ℝ) (f : ℝ → ℝ) :
    ((l.zip (l.map f)).map (fun p => p.1 * p.2)).sum =
      (l.map (fun x => x * f x)).sum := by
  induction l with
  | nil => rfl
  | cons x l ih =>
      simp only [List.map_cons, List.zip_cons_cons, List.sum_cons, ih]

theorem zip_self_sub (l : List ℝ) :
    (l.zip l).map (fun p => p.1 - p.2) = List.replicate l.length 0 := by
  induction l with
  | nil => rfl
  | cons x l ih =>
      simp only [List.zip_cons_cons, List.map_cons, List.length_cons,
        List.replicate_succ, ih, sub_self]

theorem sum_map_sq_shift (l : List ℝ) (m : ℝ) :
    (l.map (fun x => (x - m) ^ 2)).sum =
      (l.map (fun x => x ^ 2)).sum - 2 * m * l.sum + l.length * m ^ 2 := by
  induction l with
  | nil => simp
  | cons x l ih =>
      simp only [List.map_cons, List.sum_cons, ih, List.length_cons]
      push_cast
      ring

theorem fit_denom_pos (ds : List ℝ) (d1 d2 : ℝ) (h1 : d1 ∈ ds) (h2 : d2 ∈ ds)
    (hne : d1 ≠ d2) :
    0 < (ds.length : ℝ) * (ds.map (fun x => x ^ 2)).sum - ds.sum ^ 2 := by
  have hlenR : (0 : ℝ) < ds.length := by
    exact_mod_cast List.length_pos.mpr (List.ne_nil_of_mem h1)
  have hn0 : (ds.length : ℝ) ≠ 0 := ne_of_gt hlenR
  set m := ds.sum / ds.length with hm
  have key : (ds.length : ℝ) * (ds.map (fun x => x ^ 2)).sum - ds.sum ^ 2 =
      (ds.length : ℝ) * (ds.map (fun x => (x - m) ^ 2)).sum := by
    rw [sum_map_sq_shift ds m, hm]
    field_simp
    ring
  rw [key]
  apply mul_pos hlenR
  obtain ⟨d0, hd0mem, hd0⟩ : ∃ d0 ∈ ds, d0 ≠ m := by
    by_cases h : d1 = m
    · refine ⟨d2, h2, fun hc => hne ?_⟩
      rw [h, hc]
    · exact ⟨d1, h1, h⟩
  have hnn : ∀ y ∈ ds.map (fun x => (x - m) ^ 2), 0 ≤ y := by
    intro y hy
    obtain ⟨x, _, rfl⟩ := List.mem_map.mp hy
    positivity
  calc (0 : ℝ) < (d0 - m) ^ 2 :=
        pow_two_pos_of_ne_zero (sub_ne_zero.mpr hd0)
    _ ≤ (ds.map (fun x => (x - m) ^ 2)).sum :=
        List.single_le_sum hnn _ (List.mem_map_of_mem _ hd0mem)

theorem polyfit1_linear (ds : List ℝ) (α β : ℝ)
    (hD : (ds.length : ℝ) * (ds.map (fun x => x ^ 2)).sum - ds.sum ^ 2 ≠ 0) :
    polyfit1 ds (ds.map (fun d => α * d + β)) = (α, β) := by
  have hlen : ds ≠ [] := by
    intro h
    rw [h] at hD
    simp at hD
  have hn0 : (ds.length : ℝ) ≠ 0 := by
    simpa using hlen
  have hx2 : (ds.map (fun x => x * (α * x + β))).sum =
      α * (ds.map (fun x => x ^ 2)).sum + β * ds.sum := by
    have hcg : ds.map (fun x => x * (α * x + β)) =
        ds.map (fun x => α * x ^ 2 + β * x) :=
      List.map_congr_left (fun x _ => by ring)
    rw [hcg, sum_map_add_fun ds (fun x => α * x ^ 2) (fun x => β * x),
      sum_map_mul_left_fun ds α (fun x => x ^ 2),
      sum_map_mul_left_fun ds β (fun x => x)]
    simp
  have hy : (ds.map (fun d => α * d + β)).sum = α * ds.sum + β * ds.length :=
    sum_map_linear ds α β
  unfold polyfit1
  rw [zip_map_mul, hx2, hy, Prod.mk.injEq]
  have hA : ((ds.length : ℝ) * (α * (ds.map (fun x => x ^ 2)).sum + β * ds.sum) -
      ds.sum * (α * ds.sum + β * ds.length)) /
      ((ds.length : ℝ) * (ds.map (fun x => x ^ 2)).sum - ds.sum ^ 2) = α := by
    rw [show (ds.length : ℝ) * (α * (ds.map (fun x => x ^ 2)).sum + β * ds.sum) -
        ds.sum * (α * ds.sum + β * ds.length) =
        α * ((ds.length : ℝ) * (ds.map (fun x => x ^ 2)).sum - ds.sum ^ 2) from by
      ring]
    exact mul_div_cancel_right₀ α hD
  refine ⟨hA, ?_⟩
  rw [hA]
  rw [show α * ds.sum + β * (ds.length : ℝ) - α * ds.sum = β * ds.length from by ring]
  exact mul_div_cancel_right₀ β hn0

/-! ### Aggregates of an all-zero residual list -/

theorem mean_replicate_zero (n : ℕ) : mean (List.replicate n (0 : ℝ)) = 0 := by
  unfold mean
  simp

theorem popStd_replicate_zero (n : ℕ) : popStd (List.replicate n (0 : ℝ)) = 0 := by
  unfold popStd
  rw [mean_replicate_zero]
  simp

theorem foldl_max_zero (n : ℕ) : (List.replicate n (0 : ℝ)).foldl max 0 = 0 := by
  induction n with
  | zero => rfl
  | succ n ih => simpa [List.replicate_succ] using ih

theorem listMax_abs_replicate_zero (n : ℕ) :
    listMax ((List.replicate n (0 : ℝ)).map (fun x => |x|)) = 0 := by
  rw [List.map_replicate]
  simp only [abs_zero]
  cases n with
  | zero => rfl
  | succ n =>
      rw [List.replicate_succ]
      show (List.replicate n (0 : ℝ)).foldl max 0 = 0
      exact foldl_max_zero n

end

noncomputable section

/-! ### C3: roughness on exactly linear elevations -/

/-- C3 counterexample: five distance-sorted points, all with `distance = 1` and
elevation exactly `2 * distance + 5 = 7`.  The degree-1 fit is rank-deficient
(all abscissae equal): no least-squares fit can return the claimed
`trend_slope ≈ 2` here, and the embedding (with the `x / 0 = 0` convention for
the singular normal equations) yields `trend_slope = 0`. -/
theorem roughness_linear_counterexample :
    SortedByDistance ptsCoincident ∧
    5 ≤ ptsCoincident.length ∧
    (∀ p ∈ ptsCoincident, p.z = 2 * p.distance + 5) ∧
    (compute_roughness_analysis ptsCoincident).map RoughnessStats.trend_slope =
      some 0 ∧
    (0 : ℝ) ≠ 2 := by
  refine ⟨?_, by norm_num [ptsCoincident], ?_, ?_, by norm_num⟩
  · unfold SortedByDistance ptsCoincident
    norm_num [List.replicate_succ, List.chain'_cons, ptAt]
  · intro p hp
    rw [List.eq_of_mem_replicate hp]
    norm_num [ptAt]
  · have h1 : ptsCoincident.map ProfilePoint.distance = [1, 1, 1, 1, 1] := rfl
    have h2 : ptsCoincident.map ProfilePoint.z = [7, 7, 7, 7, 7] := rfl
    unfold compute_roughness_analysis
    rw [if_neg (by norm_num [ptsCoincident])]
    simp only [Option.map_some']
    refine congrArg some ?_
    show (polyfit1 (ptsCoincident.map ProfilePoint.distance)
      (ptsCoincident.map ProfilePoint.z)).1 = 0
    rw [h1, h2]
    unfold polyfit1
    norm_num [List.zip_cons_cons]

/-- C3 amended: for a distance-sorted sequence of at least 5 profile points
with **at least two distinct distance values** and elevations exactly
`2 * distance + 5`, the degree-1 least-squares fit recovers the line
(`trend_slope = 2`, `trend_intercept = 5`), every residual is `0`, and hence
`roughness_index = 0` and `max_deviation = 0` (exactly, over `ℝ`). -/
theorem roughness_linear_fit_exact (pts : List ProfilePoint)
    (h5 : 5 ≤ pts.length) (_hsort : SortedByDistance pts)
    (hlin : ∀ p ∈ pts, p.z = 2 * p.distance + 5)
    (p q : ProfilePoint) (hp : p ∈ pts) (hq : q ∈ pts)
    (hpq : p.distance ≠ q.distance) :
    compute_roughness_analysis pts =
      some ⟨0, 2, 5, 0, List.replicate pts.length 0⟩ := by
  have hes : pts.map ProfilePoint.z =
      (pts.map ProfilePoint.distance).map (fun d => 2 * d + 5) := by
    rw [List.map_map]
    exact List.map_congr_left (fun r hr => hlin r hr)
  have hD : 0 < ((pts.map ProfilePoint.distance).length : ℝ) *
      ((pts.map ProfilePoint.distance).map (fun x => x ^ 2)).sum -
      (pts.map ProfilePoint.distance).sum ^ 2 :=
    fit_denom_pos _ p.distance q.distance (List.mem_map_of_mem _ hp)
      (List.mem_map_of_mem _ hq) hpq
  have hfit : polyfit1 (pts.map ProfilePoint.distance) (pts.map ProfilePoint.z) =
      (2, 5) := by
    rw [hes]
    exact polyfit1_linear _ 2 5 (ne_of_gt hD)
  have hdev : roughnessDeviations pts = List.replicate pts.length 0 := by
    unfold roughnessDeviations
    rw [hfit, hes]
    show (((pts.map ProfilePoint.distance).map (fun d => 2 * d + 5)).zip
      ((pts.map ProfilePoint.distance).map (fun d => 2 * d + 5))).map
        (fun r => r.1 - r.2) = List.replicate pts.length 0
    rw [zip_self_sub, List.length_map, List.length_map]
  unfold compute_roughness_analysis
  rw [if_neg (show ¬ pts.length < 5 by omega)]
  rw [hdev, hfit, popStd_replicate_zero, listMax_abs_replicate_zero]

/-- Witness for C3 at five concrete points on the line `z = 2 d + 5` with
distances `0, 1, 2, 3, 4`. -/
theorem roughness_linear_fit_exact_witness :
    compute_roughness_analysis ptsLinear =
      some ⟨0, 2, 5, 0, List.replicate 5 0⟩ := by
  have h := roughness_linear_fit_exact ptsLinear (by norm_num [ptsLinear])
    (by unfold SortedByDistance ptsLinear; norm_num [List.chain'_cons, ptAt])
    (by
      intro r hr
      simp only [ptsLinear, List.mem_cons, List.not_mem_nil, or_false] at hr
      rcases hr with rfl | rfl | rfl | rfl | rfl <;> norm_num [ptAt])
    (ptAt 0 5) (ptAt 1 7) (by simp [ptsLinear]) (by simp [ptsLinear])
    (by norm_num [ptAt])
  simpa [ptsLinear] using h

end
